import Mathlib

/-!
Verification of the retrieval and embedding-sync core of `src/smart_notes.py`
(class `SmartNotesDB`), shallowly embedded in Lean.

Modelling conventions:
* Embedding vectors (`np.ndarray` of `float32`) are opaque payloads for every
  property considered here; they are modelled as `List Int`.  `tobytes()` is an
  injective encoding for a fixed dtype, so the blob stored in the table is
  identified with the vector itself.
* A Python call that raises is modelled as `Except Err _`; the `Err` type covers
  the exception classes relevant to the control flow of the source:
  `providerErr` for exceptions raised by the OpenAI client (never a sqlite
  error), and `operationalErr` for `sqlite3.OperationalError`.  The constructor
  `retrievalErr` models the spec's `RetrievalError` class, which has no
  counterpart anywhere in the source; the code never produces it, it exists so
  that the spec's propagation claim can be stated and compared.
* The sqlite connection is modelled as a committed table (a map from note id to
  vector) plus the list of uncommitted writes of the open transaction;
  `cur.execute("INSERT OR REPLACE ...")` appends to the pending list,
  `conn.commit()` folds the pending writes into the committed table and
  `conn.rollback()` discards them.
* External collaborators (the OpenAI embeddings endpoint, the `vss_search`
  virtual-table query, the FTS5 `MATCH` query) are parameters of type
  `Except Err _` (or functions returning one) supplied to each operation:
  each models that call's outcome in the run under consideration.
-/

/-- Embedding vectors are opaque payloads here; `float32` entries become `Int`. -/
def Vec : Type := List Int

instance : DecidableEq Vec := by unfold Vec; infer_instance

/-- The exception universe relevant to `smart_notes.py`'s control flow.
`providerErr` = an exception from the OpenAI client (a `ProviderError` in the
spec's taxonomy); `operationalErr` = `sqlite3.OperationalError`; `retrievalErr`
models the spec's `RetrievalError` class, which does not exist in the source.
Payloads are abstract numeric codes distinguishing concrete errors. -/
inductive Err : Type
  | providerErr (code : Nat)
  | operationalErr (code : Nat)
  | retrievalErr
deriving DecidableEq, Repr

/-- Equality of modelled call outcomes is decidable, so concrete runs can be
checked by evaluation. -/
instance {ε α : Type _} [DecidableEq ε] [DecidableEq α] :
    DecidableEq (Except ε α) := fun x y =>
  match x, y with
  | .ok a, .ok b =>
      if h : a = b then .isTrue (congrArg Except.ok h)
      else .isFalse (fun hc => h (by injection hc))
  | .error a, .error b =>
      if h : a = b then .isTrue (congrArg Except.error h)
      else .isFalse (fun hc => h (by injection hc))
  | .ok _, .error _ => .isFalse (fun hc => by injection hc)
  | .error _, .ok _ => .isFalse (fun hc => by injection hc)

/-- `except sqlite3.OperationalError` in `semantic_search` catches exactly the
operational errors; any other exception propagates. -/
def Err.isOperational : Err → Bool
  | .operationalErr _ => true
  | _ => false

/-- The `SearchResult` dataclass of `smart_notes.py` (fields in source order). -/
structure SearchResult : Type where
  title : String
  content : String
  distance : Int
  note_id : Nat
deriving DecidableEq, Repr

/-- One row of the FTS5 query `SELECT n.id, n.title, n.content, rank ...
FROM notes_fts f JOIN notes n ON f.rowid = n.id WHERE notes_fts MATCH ?`.
`rank` is SQLite FTS5's rank auxiliary column: by default the bm25() value,
which is *negative*, and smaller (more negative) for better matches — i.e.
lower rank = more relevant, so `ORDER BY rank` lists the best match first. -/
structure FtsRow : Type where
  note_id : Nat
  title : String
  content : String
  rank : Int
deriving DecidableEq, Repr

/-- One row of the joined `vss_search` query in `semantic_search`:
`(note id, title, content, distance)`. -/
structure VssRow : Type where
  note_id : Nat
  title : String
  content : String
  distance : Int
deriving DecidableEq, Repr

/-- Insertion step of the model of SQL `ORDER BY` (stable, ascending on the
given key). -/
def insertByKey (key : α → Int) (x : α) : List α → List α
  | [] => [x]
  | y :: ys => if key x ≤ key y then x :: y :: ys else y :: insertByKey key x ys

/-- Model of SQL `ORDER BY key ASC`: stable insertion sort on `key`. -/
def sortByKey (key : α → Int) : List α → List α
  | [] => []
  | x :: xs => insertByKey key x (sortByKey key xs)

/-- `fallback_text_search(query, limit)` of `smart_notes.py`.  The outcome of
the FTS5 `MATCH` query is a parameter: `.error e` if the sqlite query raises
(the method itself has no handler, so the error propagates), `.ok rows` with
the unordered matching rows otherwise.  The SQL then orders by `rank`
ascending, applies `LIMIT ?`, and selects `rank * -1 as distance`. -/
def fallback_text_search (fts : Except Err (List FtsRow)) (limit : Nat) :
    Except Err (List SearchResult) :=
  match fts with
  | .error e => .error e
  | .ok rows =>
      .ok (((sortByKey (fun r => r.rank) rows).take limit).map
        (fun r => { title := r.title, content := r.content,
                    distance := r.rank * (-1), note_id := r.note_id }))

/-- `semantic_search(query, limit)` of `smart_notes.py`.
Parameters model the run's environment: `provider` is the outcome of
`_get_embedding_cached` on the query (which re-raises any provider exception),
`vss` is the outcome of the `vss_search` join given the query vector (already
`ORDER BY v.distance ASC`-sorted by the model below), and `fts` is the outcome
of the FTS5 query should the fallback run.  The whole semantic attempt sits in
one `try` whose only handler is `except sqlite3.OperationalError`; that handler
returns `self.fallback_text_search(query, limit)`.  Any non-operational
exception — in particular every provider error — propagates to the caller. -/
def semantic_search (provider : Except Err Vec)
    (vss : Vec → Except Err (List VssRow))
    (fts : Except Err (List FtsRow)) (limit : Nat) :
    Except Err (List SearchResult) :=
  let attempt : Except Err (List SearchResult) :=
    match provider with
    | .error e => .error e
    | .ok v =>
        match vss v with
        | .error e => .error e
        | .ok rows =>
            .ok ((sortByKey (fun r => r.distance) rows).map
              (fun r => { title := r.title, content := r.content,
                          distance := r.distance, note_id := r.note_id }))
  match attempt with
  | .ok rs => .ok rs
  | .error e =>
      if e.isOperational then fallback_text_search fts limit else .error e

/-! ## The embedding-sync side: `add_embeddings_batch` / `update_all_embeddings` -/

/-- Effect on the committed table of one
`INSERT OR REPLACE INTO note_embeddings (id, embedding) VALUES (?, ?)`:
`id` is the table's `INTEGER PRIMARY KEY`, so the row for `id` is written or
replaced and every other row is untouched. -/
def insertOrReplace (m : Nat → Option Vec) (id : Nat) (v : Vec) :
    Nat → Option Vec :=
  fun k => if k = id then some v else m k

/-- Apply a list of buffered `INSERT OR REPLACE` writes in order. -/
def applyWrites (m : Nat → Option Vec) (ps : List (Nat × Vec)) :
    Nat → Option Vec :=
  ps.foldl (fun acc p => insertOrReplace acc p.1 p.2) m

/-- The sqlite connection during `add_embeddings_batch`: the committed
`note_embeddings` table plus the uncommitted writes of the open transaction. -/
structure Conn : Type where
  committed : Nat → Option Vec
  pending : List (Nat × Vec)

/-- `cur.execute("INSERT OR REPLACE INTO note_embeddings ...", (note_id, blob))`
inside an open transaction: the write is buffered, the committed table is
untouched until `conn.commit()`. -/
def execInsert (c : Conn) (id : Nat) (v : Vec) : Conn :=
  { c with pending := c.pending ++ [(id, v)] }

/-- `conn.commit()`: the buffered writes become durable, in order. -/
def Conn.commit (c : Conn) : Conn :=
  { committed := applyWrites c.committed c.pending, pending := [] }

/-- `conn.rollback()`: the buffered writes are discarded. -/
def Conn.rollback (c : Conn) : Conn :=
  { c with pending := [] }

/-- The log lines `add_embeddings_batch` / `update_all_embeddings` emit, with
their numeric payloads: `logger.info(f"Updating embeddings for {n} notes")`,
`logger.info(f"Processed batch {i} slash {total}")`, and
`logger.error(f"Error processing batch: {e}")` (whose payload is the exception
text, carrying no count). -/
inductive LogEvent : Type
  | updating (n : Nat)
  | processedBatch (i total : Nat)
  | errorBatch
deriving DecidableEq, Repr

/-- The natural numbers a log line communicates to its reader. -/
def LogEvent.nums : LogEvent → List Nat
  | .updating n => [n]
  | .processedBatch i total => [i, total]
  | .errorBatch => []

/-- All numbers reported across a whole log. -/
def reportedNums (log : List LogEvent) : List Nat :=
  log.flatMap LogEvent.nums

/-- Worker for `chunkList`, structurally recursive on a fuel argument so that
concrete runs evaluate (the fuel is always instantiated with the list's
length, which suffices whenever `0 < b`). -/
def chunkGo (b : Nat) : Nat → List α → List (List α)
  | _, [] => []
  | 0, _ :: _ => []
  | Nat.succ n, x :: xs => (x :: xs).take b :: chunkGo b n ((x :: xs).drop b)

/-- `notes[i:i+batch_size]` chunking of `for i in range(0, len(notes),
batch_size)`: successive slices of size `b` (the last one possibly shorter).
Defined for `b = 0` as no batches purely to stay total; Python's
`range(0, n, 0)` raises `ValueError`, and every property below assumes
`0 < b`. -/
def chunkList (b : Nat) (l : List α) : List (List α) :=
  if b = 0 then [] else chunkGo b l.length l

/-- Environment of one `add_embeddings_batch` run: the outcome of the `k`-th
`self.client.embeddings.create(...)` call (0-based, `response.data` as a list
of vectors — its length is whatever the provider returned), and for the store,
whether the `k`-th batch's inserts raise, and if so at which 0-based position
(`none` = all inserts of that batch succeed). -/
structure SyncCtx : Type where
  provider : Nat → List String → Except Err (List Vec)
  writeFail : Nat → Option Nat

/-- Execute the insert loop
`for (note_id, _), embedding_data in zip(batch, response.data): cur.execute(...)`
on the open connection.  `k` counts inserts already executed in this batch;
`failAt` injects the store fault.  Returns the connection as left by the loop
and `true` iff the loop completed without raising. -/
def execBatchInserts (c : Conn) (ps : List (Nat × Vec)) (k : Nat)
    (failAt : Option Nat) : Conn × Bool :=
  match ps with
  | [] => (c, true)
  | p :: rest =>
      if failAt = some k then (c, false)
      else execBatchInserts (execInsert c p.1 p.2) rest (k + 1) failAt

/-- One iteration of the batch loop of `add_embeddings_batch` (sans the
`time.sleep(0.1)` rate-limit pause, which has no observable effect here):
one provider call with the batch's texts; on success the zipped
`(note id, vector)` pairs are inserted and committed; on any exception the
batch is rolled back and the error logged, and control returns to the loop.
Returns the connection, the log line, and the texts sent to the provider. -/
def processBatch (ctx : SyncCtx) (bIdx total : Nat)
    (batch : List (Nat × String)) (c : Conn) :
    Conn × LogEvent × List String :=
  let texts := batch.map Prod.snd
  match ctx.provider bIdx texts with
  | .error _ => (c.rollback, .errorBatch, texts)
  | .ok data =>
      let pairs := (batch.zip data).map (fun p => (p.1.1, p.2))
      let r := execBatchInserts c pairs 0 (ctx.writeFail bIdx)
      if r.2 then (r.1.commit, .processedBatch (bIdx + 1) total, texts)
      else (r.1.rollback, .errorBatch, texts)

/-- The batch loop over the chunks, threading the connection and accumulating
log lines and provider requests in order. -/
def syncLoop (ctx : SyncCtx) (total : Nat) :
    List (List (Nat × String)) → Nat → Conn →
    Conn × List LogEvent × List (List String)
  | [], _, c => (c, [], [])
  | batch :: rest, bIdx, c =>
      let r := processBatch ctx bIdx total batch c
      let t := syncLoop ctx total rest (bIdx + 1) r.1
      (t.1, r.2.1 :: t.2.1, r.2.2 :: t.2.2)

/-- Observable outcome of `add_embeddings_batch`: the final connection, the
emitted log, and the provider requests issued.  The Python method itself
returns `None`; these are the only effects a caller can see. -/
structure SyncOut : Type where
  conn : Conn
  log : List LogEvent
  calls : List (List String)

/-- `add_embeddings_batch(notes, batch_size)` of `smart_notes.py`: chunk
`notes` into `batch_size`-slices and run the batch loop.  Each batch's
`try` block covers the provider call, the insert loop and the `commit`; its
`except Exception` handler logs and rolls back, so no batch failure escapes
the method. -/
def add_embeddings_batch (ctx : SyncCtx) (notes : List (Nat × String))
    (batch_size : Nat) (c : Conn) : SyncOut :=
  let batches := chunkList batch_size notes
  let n := notes.length
  let total := (n - 1) / batch_size + 1
  let r := syncLoop ctx total batches 0 c
  { conn := r.1, log := r.2.1, calls := r.2.2 }

/-- `update_all_embeddings()` of `smart_notes.py`: read
`SELECT id, title || ' ' || content FROM notes` (the notes table is the
input), log the note count, and call `add_embeddings_batch` with its default
`batch_size = 10`.  The method returns `None`: the log and the store are all
it reports. -/
def update_all_embeddings (ctx : SyncCtx)
    (notesTable : List (Nat × String × String)) (c : Conn) : SyncOut :=
  let notes_data := notesTable.map
    (fun r => (r.1, r.2.1 ++ " " ++ r.2.2))
  let out := add_embeddings_batch ctx notes_data 10 c
  { out with log := .updating notes_data.length :: out.log }

/-! ## Derived predicates and concrete scenarios -/

/-- Whether the `try` body of one batch iteration raises: either the provider
call fails, or the insert loop over the zipped pairs raises.  (The Bool
component of `execBatchInserts` does not depend on the connection it starts
from — see `execBatchInserts_snd_indep` — so it is probed here from a fresh
connection.) -/
def batchFails (ctx : SyncCtx) (bIdx : Nat) (batch : List (Nat × String)) :
    Bool :=
  match ctx.provider bIdx (batch.map Prod.snd) with
  | .error _ => true
  | .ok data =>
      !(execBatchInserts { committed := fun _ => none, pending := [] }
          ((batch.zip data).map (fun p => (p.1.1, p.2))) 0
          (ctx.writeFail bIdx)).2

/-- The log line a batch produces: the error line when its `try` body raises,
the progress line otherwise. -/
def batchEvent (ctx : SyncCtx) (total bIdx : Nat)
    (batch : List (Nat × String)) : LogEvent :=
  if batchFails ctx bIdx batch then .errorBatch
  else .processedBatch (bIdx + 1) total

/-- Modelled from the spec: the claim's score convention, "scores in ascending
order with the most relevant match having the numerically lowest score".
Checks that each adjacent pair of results has non-decreasing `distance`. -/
def scoresAscendingB : List SearchResult → Bool
  | a :: b :: rest => (a.distance ≤ b.distance) && scoresAscendingB (b :: rest)
  | _ => true

/-- A fresh connection over an empty `note_embeddings` table. -/
def connEmpty : Conn := { committed := fun _ => none, pending := [] }

/-- The 12-note scenario's `notes` table: ids 1..12, title `"t"`,
content `"c"`. -/
def notesTable12 : List (Nat × String × String) :=
  (List.range 12).map (fun i => (i + 1, ("t", "c")))

/-- The 12-note scenario's environment: the first provider call succeeds
(one vector per input text), the second raises; no store faults. -/
def ctx12 : SyncCtx :=
  { provider := fun k texts =>
      if k = 0 then .ok (texts.map (fun _ => ([] : Vec)))
      else .error (.providerErr 1),
    writeFail := fun _ => none }

/-- Environment whose provider always fails and whose store never does;
used to exercise single-batch failure concretely. -/
def ctxProvFail : SyncCtx :=
  { provider := fun _ _ => .error (.providerErr 2),
    writeFail := fun _ => none }

/-- Environment for the short-response scenario: the provider answers the
first call with two vectors (however many texts were sent); no store faults. -/
def ctxShort : SyncCtx :=
  { provider := fun _ _ => .ok [[10], [20]],
    writeFail := fun _ => none }

/-- A connection holding one pre-existing embedding record, for note id 3. -/
def connWith3 : Conn :=
  { committed := fun k => if k = 3 then some [99] else none, pending := [] }

/-- Environment whose provider fails on the first call only, succeeding (one
vector per text) afterwards; no store faults. -/
def ctxFailFirst : SyncCtx :=
  { provider := fun k texts =>
      if k = 0 then .error (.providerErr 3)
      else .ok (texts.map (fun _ => ([] : Vec))),
    writeFail := fun _ => none }

/-- The 12-note scenario's `(note_id, text)` pairs as `update_all_embeddings`
derives them: ids 1..12, text `title || ' ' || content`. -/
def notes12data : List (Nat × String) :=
  (List.range 12).map (fun i => (i + 1, "t c"))

/-! ## Helper lemmas -/

theorem execBatchInserts_snd_indep (ps : List (Nat × Vec)) :
    ∀ (c c₂ : Conn) (k : Nat) (f : Option Nat),
      (execBatchInserts c ps k f).2 = (execBatchInserts c₂ ps k f).2 := by
  induction ps with
  | nil => intro c c₂ k f; rfl
  | cons p rest ih =>
      intro c c₂ k f
      simp only [execBatchInserts]
      by_cases h : f = some k
      · simp [h]
      · simp only [if_neg h]
        exact ih _ _ _ _

theorem execBatchInserts_committed (ps : List (Nat × Vec)) :
    ∀ (c : Conn) (k : Nat) (f : Option Nat),
      (execBatchInserts c ps k f).1.committed = c.committed := by
  induction ps with
  | nil => intro c k f; rfl
  | cons p rest ih =>
      intro c k f
      simp only [execBatchInserts]
      by_cases h : f = some k
      · simp [h]
      · simp [h, ih, execInsert]

theorem execBatchInserts_none (ps : List (Nat × Vec)) :
    ∀ (c : Conn) (k : Nat),
      execBatchInserts c ps k none
        = ({ c with pending := c.pending ++ ps }, true) := by
  induction ps with
  | nil => intro c k; simp [execBatchInserts]
  | cons p rest ih =>
      intro c k
      simp only [execBatchInserts]
      rw [if_neg (by simp)]
      rw [ih]
      simp [execInsert]

theorem applyWrites_notMem (ps : List (Nat × Vec)) :
    ∀ (m : Nat → Option Vec) (id : Nat), id ∉ ps.map Prod.fst →
      applyWrites m ps id = m id := by
  induction ps with
  | nil => intro m id _; rfl
  | cons p rest ih =>
      intro m id h
      simp only [List.map_cons, List.mem_cons] at h
      push_neg at h
      show applyWrites (insertOrReplace m p.1 p.2) rest id = m id
      rw [ih _ _ h.2]
      simp [insertOrReplace, h.1]

theorem applyWrites_get (ps : List (Nat × Vec)) :
    (ps.map Prod.fst).Nodup →
    ∀ (m : Nat → Option Vec) (i : Nat) (h : i < ps.length),
      applyWrites m ps (ps.get ⟨i, h⟩).1 = some (ps.get ⟨i, h⟩).2 := by
  induction ps with
  | nil => intro _ m i h; exact absurd h (by simp)
  | cons p rest ih =>
      intro hnd m i h
      simp only [List.map_cons, List.nodup_cons] at hnd
      match i with
      | 0 =>
          show applyWrites (insertOrReplace m p.1 p.2) rest p.1 = some p.2
          rw [applyWrites_notMem _ _ _ hnd.1]
          simp [insertOrReplace]
      | Nat.succ j =>
          have hj : j < rest.length := by
            simpa [Nat.succ_lt_succ_iff] using h
          show applyWrites (insertOrReplace m p.1 p.2) rest
              ((p :: rest).get ⟨j + 1, h⟩).1
            = some ((p :: rest).get ⟨j + 1, h⟩).2
          have hg : (p :: rest).get ⟨j + 1, h⟩ = rest.get ⟨j, hj⟩ := rfl
          rw [hg]
          exact ih hnd.2 _ j hj

theorem chunkGo_fuel {α : Type _} (b : Nat) (hb : 0 < b) :
    ∀ (n m : Nat) (l : List α), l.length ≤ n → l.length ≤ m →
      chunkGo b n l = chunkGo b m l := by
  intro n
  induction n with
  | zero =>
      intro m l hn _
      have hnil : l = [] := List.eq_nil_of_length_eq_zero (Nat.le_zero.mp hn)
      subst hnil
      cases m <;> rfl
  | succ n ih =>
      intro m l hn hm
      match l with
      | [] => cases m <;> rfl
      | x :: xs =>
          match m with
          | 0 => exact absurd hm (by simp)
          | Nat.succ m =>
              show ((x :: xs).take b :: chunkGo b n ((x :: xs).drop b))
                = ((x :: xs).take b :: chunkGo b m ((x :: xs).drop b))
              have hlen : ((x :: xs).drop b).length ≤ n := by
                simp only [List.length_drop, List.length_cons]
                simp only [List.length_cons] at hn
                omega
              have hlen2 : ((x :: xs).drop b).length ≤ m := by
                simp only [List.length_drop, List.length_cons]
                simp only [List.length_cons] at hm
                omega
              rw [ih _ _ hlen hlen2]

theorem chunkList_nil {α : Type _} (b : Nat) : chunkList b ([] : List α) = [] := by
  unfold chunkList
  cases b <;> rfl

theorem chunkList_cons {α : Type _} (b : Nat) (hb : 0 < b) (x : α)
    (xs : List α) :
    chunkList b (x :: xs)
      = (x :: xs).take b :: chunkList b ((x :: xs).drop b) := by
  unfold chunkList
  rw [if_neg (by omega : ¬ b = 0), if_neg (by omega : ¬ b = 0)]
  show chunkGo b (xs.length + 1) (x :: xs)
    = (x :: xs).take b :: chunkGo b ((x :: xs).drop b).length ((x :: xs).drop b)
  show (x :: xs).take b :: chunkGo b xs.length ((x :: xs).drop b)
    = (x :: xs).take b :: chunkGo b ((x :: xs).drop b).length ((x :: xs).drop b)
  rw [chunkGo_fuel b hb xs.length (((x :: xs).drop b).length) _
    (by simp only [List.length_drop, List.length_cons]; omega) (Nat.le_refl _)]

theorem chunkList_length_aux {α : Type _} (b : Nat) (hb : 0 < b) :
    ∀ (n : Nat) (l : List α), l.length ≤ n →
      (chunkList b l).length = (l.length + b - 1) / b := by
  intro n
  induction n with
  | zero =>
      intro l hl
      have hnil : l = [] := List.eq_nil_of_length_eq_zero (Nat.le_zero.mp hl)
      subst hnil
      have h0 : (b - 1) / b = 0 := Nat.div_eq_of_lt (by omega)
      simp [chunkList_nil, h0]
  | succ n ih =>
      intro l hl
      match l with
      | [] =>
          have h0 : (b - 1) / b = 0 := Nat.div_eq_of_lt (by omega)
          simp [chunkList_nil, h0]
      | x :: xs =>
          rw [chunkList_cons b hb x xs]
          have hdl : ((x :: xs).drop b).length = xs.length + 1 - b := by
            simp
          have ihl : (chunkList b ((x :: xs).drop b)).length
              = (((x :: xs).drop b).length + b - 1) / b := by
            refine ih _ ?_
            simp only [List.length_drop, List.length_cons]
            simp only [List.length_cons] at hl
            omega
          simp only [List.length_cons, ihl, hdl]
          by_cases hm : xs.length + 1 ≤ b
          · have e1 : xs.length + 1 - b + b - 1 = b - 1 := by omega
            have e2 : xs.length + 1 + b - 1 = xs.length + b := by omega
            rw [e1, e2, Nat.add_div_right _ hb,
              Nat.div_eq_of_lt (by omega : b - 1 < b),
              Nat.div_eq_of_lt (by omega : xs.length < b)]
          · have e1 : xs.length + 1 - b + b - 1 = xs.length := by omega
            have e2 : xs.length + 1 + b - 1 = xs.length + b := by omega
            rw [e1, e2, Nat.add_div_right _ hb]

theorem chunkList_length {α : Type _} (b : Nat) (hb : 0 < b) (l : List α) :
    (chunkList b l).length = (l.length + b - 1) / b :=
  chunkList_length_aux b hb l.length l (Nat.le_refl _)

theorem chunkList_flatten_aux {α : Type _} (b : Nat) (hb : 0 < b) :
    ∀ (n : Nat) (l : List α), l.length ≤ n → (chunkList b l).flatten = l := by
  intro n
  induction n with
  | zero =>
      intro l hl
      have hnil : l = [] := List.eq_nil_of_length_eq_zero (Nat.le_zero.mp hl)
      subst hnil
      simp [chunkList_nil]
  | succ n ih =>
      intro l hl
      match l with
      | [] => simp [chunkList_nil]
      | x :: xs =>
          rw [chunkList_cons b hb x xs]
          rw [List.flatten_cons]
          rw [ih ((x :: xs).drop b) (by
            simp only [List.length_drop, List.length_cons]
            simp only [List.length_cons] at hl
            omega)]
          exact List.take_append_drop b (x :: xs)

theorem chunkList_flatten {α : Type _} (b : Nat) (hb : 0 < b) (l : List α) :
    (chunkList b l).flatten = l :=
  chunkList_flatten_aux b hb l.length l (Nat.le_refl _)

theorem processBatch_calls (ctx : SyncCtx) (bIdx total : Nat)
    (batch : List (Nat × String)) (c : Conn) :
    (processBatch ctx bIdx total batch c).2.2 = batch.map Prod.snd := by
  unfold processBatch
  cases h : ctx.provider bIdx (batch.map Prod.snd) with
  | error e => simp [h]
  | ok data =>
      simp only [h]
      split <;> rfl

theorem processBatch_log (ctx : SyncCtx) (bIdx total : Nat)
    (batch : List (Nat × String)) (c : Conn) :
    (processBatch ctx bIdx total batch c).2.1 = batchEvent ctx total bIdx batch := by
  unfold processBatch batchEvent batchFails
  cases h : ctx.provider bIdx (batch.map Prod.snd) with
  | error e => simp [h]
  | ok data =>
      simp only [h]
      have hind := execBatchInserts_snd_indep
        ((batch.zip data).map (fun p => (p.1.1, p.2)))
        { committed := fun _ => none, pending := [] } c 0 (ctx.writeFail bIdx)
      cases h2 : (execBatchInserts c
          ((batch.zip data).map (fun p => (p.1.1, p.2))) 0
          (ctx.writeFail bIdx)).2 <;>
        simp [h2, hind.trans h2]

theorem syncLoop_calls (ctx : SyncCtx) (total : Nat) :
    ∀ (batches : List (List (Nat × String))) (bIdx : Nat) (c : Conn),
      (syncLoop ctx total batches bIdx c).2.2
        = batches.map (fun b2 => b2.map Prod.snd) := by
  intro batches
  induction batches with
  | nil => intro bIdx c; rfl
  | cons b2 rest ih =>
      intro bIdx c
      simp only [syncLoop, List.map_cons]
      rw [processBatch_calls, ih]

theorem syncLoop_log (ctx : SyncCtx) (total : Nat) :
    ∀ (batches : List (List (Nat × String))) (bIdx : Nat) (c : Conn),
      (syncLoop ctx total batches bIdx c).2.1
        = List.zipWith (fun i b2 => batchEvent ctx total i b2)
            (List.range' bIdx batches.length) batches := by
  intro batches
  induction batches with
  | nil => intro bIdx c; rfl
  | cons b2 rest ih =>
      intro bIdx c
      simp only [syncLoop, List.length_cons, List.range'_succ, List.zipWith_cons_cons]
      rw [processBatch_log, ih]

/-! ## Claims -/

/-- C1, counterexample.  The claim says a provider failure while computing the
query vector makes `search` return the lexical fallback's results without
raising.  In the source, `semantic_search`'s only handler is
`except sqlite3.OperationalError`, and `_get_embedding_cached` re-raises
provider exceptions, so a provider error propagates: here the call raises
(`.error`) while the lexical fallback would have returned a result list. -/
theorem C1_provider_error_counterexample :
    semantic_search (.error (.providerErr 0)) (fun _ => .ok [])
        (.ok [{ note_id := 1, title := "a", content := "b", rank := -3 }]) 5
      = .error (.providerErr 0)
    ∧ fallback_text_search
        (.ok [{ note_id := 1, title := "a", content := "b", rank := -3 }]) 5
      = .ok [{ title := "a", content := "b", distance := 3, note_id := 1 }] := by
  exact ⟨rfl, by decide⟩

/-- C1, amended.  A provider failure (any exception that is not a
`sqlite3.OperationalError`) while computing the query vector propagates to
`semantic_search`'s caller unchanged; the lexical fallback is not consulted. -/
theorem C1_amended_provider_error_propagates (k : Nat)
    (vss : Vec → Except Err (List VssRow)) (fts : Except Err (List FtsRow))
    (limit : Nat) :
    semantic_search (.error (.providerErr k)) vss fts limit
      = .error (.providerErr k) := rfl

/-- C2, code bug.  Failing input: an FTS5 query matching two rows with ranks
-2 (the more relevant match) and -1.  FTS5's `rank` is already
"lower is better" (bm25 is negative, more negative = better), so `ORDER BY
rank` correctly lists the rank -2 row first, but `rank * -1 as distance` then
assigns the best match the numerically *highest* score: the returned scores
are 2, 1 — strictly descending — where the claim (and §4.3 of the spec, and
the `distance` convention of the code's own semantic path) requires ascending
scores with the best match lowest. -/
theorem C2_fallback_scores_descending_bug :
    fallback_text_search
        (.ok [{ note_id := 1, title := "t1", content := "c1", rank := -2 },
              { note_id := 2, title := "t2", content := "c2", rank := -1 }]) 5
      = .ok [{ title := "t1", content := "c1", distance := 2, note_id := 1 },
             { title := "t2", content := "c2", distance := 1, note_id := 2 }]
    ∧ scoresAscendingB
        [{ title := "t1", content := "c1", distance := 2, note_id := 1 },
         { title := "t2", content := "c2", distance := 1, note_id := 2 }]
      = false := by
  exact ⟨by decide, by decide⟩

/-- C3, confirmed.  When the vector-search capability is unavailable, the
`vss_search` query raises `sqlite3.OperationalError`; `semantic_search`
catches exactly that and returns `fallback_text_search(query, limit)` — the
Lexical Index Adapter's results themselves, ids, order and score-mapping
included.  (The semantic attempt starts with the provider call, so this
covers every run in which that call returns; C1 records what the code does
when it raises instead.) -/
theorem C3_unavailable_equals_direct_fallback (v : Vec) (k : Nat)
    (fts : Except Err (List FtsRow)) (limit : Nat) :
    semantic_search (.ok v) (fun _ => .error (.operationalErr k)) fts limit
      = fallback_text_search fts limit := rfl

/-- C4, counterexample.  The claim says a fallback failure after a semantic
failure surfaces as a `RetrievalError`.  The source has no `RetrievalError`
class at all: `fallback_text_search` has no handler, so the fallback's own
error — here `sqlite3.OperationalError` (code 7) — propagates as itself, which
is not the spec's `RetrievalError`. -/
theorem C4_no_retrieval_error_counterexample :
    semantic_search (.ok ([] : Vec)) (fun _ => .error (.operationalErr 3))
        (.error (.operationalErr 7)) 5
      = .error (.operationalErr 7)
    ∧ Err.operationalErr 7 ≠ Err.retrievalErr := by
  exact ⟨rfl, by decide⟩

/-- C4, amended.  When the semantic attempt fails with a
`sqlite3.OperationalError` and the lexical fallback query also fails, the
fallback's error propagates to the caller unchanged (no `RetrievalError`
wrapper exists in the code) and no further fallback is attempted. -/
theorem C4_amended_fallback_failure_propagates (v : Vec) (k : Nat) (e : Err)
    (limit : Nat) :
    semantic_search (.ok v) (fun _ => .error (.operationalErr k))
        (.error e) limit
      = .error e := rfl

/-- C9, confirmed.  The effect of `INSERT OR REPLACE INTO note_embeddings`
keyed by the primary-key note id is idempotent: upserting the same note id
and vector twice leaves the table in the same state as upserting once. -/
theorem C9_upsert_idempotent (m : Nat → Option Vec) (id : Nat) (v : Vec) :
    insertOrReplace (insertOrReplace m id v) id v = insertOrReplace m id v := by
  funext k
  by_cases h : k = id <;> simp [insertOrReplace, h]

/-- C7, confirmed.  A batch is an atomic unit: if its `try` body fails at any
point (provider call, or any insert of the loop), the `except` handler runs
`conn.rollback()`, so none of that batch's buffered writes reach the
committed table and the store state for every note id — pre-existing records
included — is exactly what it was before the batch. -/
theorem C7_failed_batch_preserves_store (ctx : SyncCtx) (bIdx total : Nat)
    (batch : List (Nat × String)) (c : Conn)
    (hf : batchFails ctx bIdx batch = true) :
    (processBatch ctx bIdx total batch c).1.committed = c.committed
    ∧ (processBatch ctx bIdx total batch c).1.pending = [] := by
  unfold processBatch
  unfold batchFails at hf
  cases h : ctx.provider bIdx (batch.map Prod.snd) with
  | error e => simp [h, Conn.rollback]
  | ok data =>
      simp only [h] at hf
      simp only [h]
      have hind := execBatchInserts_snd_indep
        ((batch.zip data).map (fun p => (p.1.1, p.2)))
        { committed := fun _ => none, pending := [] } c 0 (ctx.writeFail bIdx)
      have h2 : (execBatchInserts c
          ((batch.zip data).map (fun p => (p.1.1, p.2))) 0
          (ctx.writeFail bIdx)).2 = false := by
        rw [← hind]
        simpa using hf
      simp [h2, Conn.rollback, execBatchInserts_committed]

/-- Witness for C7: a concrete failing batch (the provider call raises) over
a connection that already holds an embedding record for note id 3. -/
theorem C7_failed_batch_preserves_store_witness :
    batchFails ctxProvFail 0 [(1, "x")] = true
    ∧ ((processBatch ctxProvFail 0 1 [(1, "x")] connWith3).1.committed
          = connWith3.committed
      ∧ (processBatch ctxProvFail 0 1 [(1, "x")] connWith3).1.pending = []) :=
  ⟨by decide,
   C7_failed_batch_preserves_store ctxProvFail 0 1 [(1, "x")] connWith3
     (by decide)⟩

/-- C6, confirmed.  One run of `add_embeddings_batch` produces exactly one
provider call and exactly one log line per batch, in batch order: the line is
the error line precisely when that batch's provider call or insert loop
raises, and every later batch is still called and logged — a failed batch is
recorded and the loop continues; nothing escapes the per-batch
`except Exception` handler, so the run always returns normally with these
observables. -/
theorem C6_batch_failure_recorded_loop_continues (ctx : SyncCtx)
    (notes : List (Nat × String)) (b : Nat) (c : Conn) (_hb : 0 < b) :
    (add_embeddings_batch ctx notes b c).log
      = List.zipWith
          (fun i batch => batchEvent ctx ((notes.length - 1) / b + 1) i batch)
          (List.range' 0 (chunkList b notes).length) (chunkList b notes)
    ∧ (add_embeddings_batch ctx notes b c).calls
      = (chunkList b notes).map (fun batch => batch.map Prod.snd) :=
  ⟨syncLoop_log ctx _ _ 0 c, syncLoop_calls ctx _ _ 0 c⟩

/-- Witness for C6: two one-note batches, the first batch's provider call
failing; the log records the failure for batch 1 and the progress line for
batch 2, and both batches' provider calls are issued. -/
theorem C6_batch_failure_recorded_loop_continues_witness :
    0 < 1
    ∧ ((add_embeddings_batch ctxFailFirst [(1, "x"), (2, "y")] 1 connEmpty).log
        = List.zipWith
            (fun i batch => batchEvent ctxFailFirst
              ((([(1, "x"), (2, "y")] : List (Nat × String)).length - 1) / 1 + 1) i batch)
            (List.range' 0 (chunkList 1 [(1, "x"), (2, "y")]).length)
            (chunkList 1 [(1, "x"), (2, "y")])
      ∧ (add_embeddings_batch ctxFailFirst [(1, "x"), (2, "y")] 1 connEmpty).calls
        = (chunkList 1 [(1, "x"), (2, "y")]).map (fun batch => batch.map Prod.snd))
    ∧ (add_embeddings_batch ctxFailFirst [(1, "x"), (2, "y")] 1 connEmpty).log
        = [.errorBatch, .processedBatch 2 2] :=
  ⟨by decide,
   C6_batch_failure_recorded_loop_continues ctxFailFirst [(1, "x"), (2, "y")] 1
     connEmpty (by decide),
   by decide⟩

/-- C8, confirmed.  `add_embeddings_batch` partitions the notes into
`ceil(n / b)` successive slices whose concatenation is the input, and issues
exactly one provider call per slice carrying that slice's texts. -/
theorem C8_one_provider_call_per_ceil_batch (ctx : SyncCtx)
    (notes : List (Nat × String)) (b : Nat) (c : Conn) (hb : 0 < b) :
    (add_embeddings_batch ctx notes b c).calls
      = (chunkList b notes).map (fun batch => batch.map Prod.snd)
    ∧ (chunkList b notes).flatten = notes
    ∧ (add_embeddings_batch ctx notes b c).calls.length
      = (notes.length + b - 1) / b := by
  have hc : (add_embeddings_batch ctx notes b c).calls
      = (chunkList b notes).map (fun batch => batch.map Prod.snd) :=
    syncLoop_calls ctx _ _ 0 c
  refine ⟨hc, chunkList_flatten b hb notes, ?_⟩
  rw [hc, List.length_map, chunkList_length b hb]

/-- Witness for C8: the spec's 12-notes / batch-size-10 scenario issues
exactly 2 provider calls, one with 10 texts and one with 2. -/
theorem C8_one_provider_call_per_ceil_batch_witness :
    0 < 10
    ∧ ((add_embeddings_batch ctx12 notes12data 10 connEmpty).calls
        = (chunkList 10 notes12data).map (fun batch => batch.map Prod.snd)
      ∧ (chunkList 10 notes12data).flatten = notes12data
      ∧ (add_embeddings_batch ctx12 notes12data 10 connEmpty).calls.length
        = (notes12data.length + 10 - 1) / 10)
    ∧ (add_embeddings_batch ctx12 notes12data 10 connEmpty).calls.map
        List.length = [10, 2] :=
  ⟨by decide,
   C8_one_provider_call_per_ceil_batch ctx12 notes12data 10 connEmpty
     (by decide),
   by decide⟩

/-- C5, counterexample.  In the 12-notes / batch-size-10 scenario with the
second provider call raising, `update_all_embeddings` returns `None` (its only
outputs are the store and the log), and the log is exactly
`Updating embeddings for 12 notes`, `Processed batch 1/2`,
`Error processing batch: ...`.  The numbers those lines communicate are 12, 1
and 2: the count of notes successfully embedded — 10 — is neither returned
nor reported anywhere, contradicting the claim that sync "reports 10 notes
succeeded". -/
theorem C5_success_count_not_reported_counterexample :
    (update_all_embeddings ctx12 notesTable12 connEmpty).log
      = [.updating 12, .processedBatch 1 2, .errorBatch]
    ∧ reportedNums
        [LogEvent.updating 12, LogEvent.processedBatch 1 2, LogEvent.errorBatch]
      = [12, 1, 2]
    ∧ (10 : Nat) ∉ ([12, 1, 2] : List Nat) := by
  refine ⟨by decide, by decide, by decide⟩

/-- C5, amended.  In the scenario, the run completes without raising (each
batch failure is swallowed by the per-batch handler): the committed store ends
with embeddings for exactly the first batch's notes (ids 1..10) and none for
ids 11 and 12, and exactly one batch-error line is logged — but no count of
successfully embedded notes is returned or reported; the method returns `None`
and logs only the note total and batch indices. -/
theorem C5_amended_scenario_outcome :
    (update_all_embeddings ctx12 notesTable12 connEmpty).log
      = [.updating 12, .processedBatch 1 2, .errorBatch]
    ∧ (update_all_embeddings ctx12 notesTable12 connEmpty).conn.committed 1
        = some []
    ∧ (update_all_embeddings ctx12 notesTable12 connEmpty).conn.committed 2
        = some []
    ∧ (update_all_embeddings ctx12 notesTable12 connEmpty).conn.committed 3
        = some []
    ∧ (update_all_embeddings ctx12 notesTable12 connEmpty).conn.committed 4
        = some []
    ∧ (update_all_embeddings ctx12 notesTable12 connEmpty).conn.committed 5
        = some []
    ∧ (update_all_embeddings ctx12 notesTable12 connEmpty).conn.committed 6
        = some []
    ∧ (update_all_embeddings ctx12 notesTable12 connEmpty).conn.committed 7
        = some []
    ∧ (update_all_embeddings ctx12 notesTable12 connEmpty).conn.committed 8
        = some []
    ∧ (update_all_embeddings ctx12 notesTable12 connEmpty).conn.committed 9
        = some []
    ∧ (update_all_embeddings ctx12 notesTable12 connEmpty).conn.committed 10
        = some []
    ∧ (update_all_embeddings ctx12 notesTable12 connEmpty).conn.committed 11
        = none
    ∧ (update_all_embeddings ctx12 notesTable12 connEmpty).conn.committed 12
        = none := by
  refine ⟨by decide, by decide, by decide, by decide, by decide, by decide,
    by decide, by decide, by decide, by decide, by decide, by decide,
    by decide⟩

/-- C10, confirmed.  `zip(batch, response.data)` pairs notes with returned
vectors positionally and stops at the shorter list: when the provider answers
a batch with fewer vectors than texts and the batch's note ids are distinct,
the committed table afterwards holds the i-th returned vector under the i-th
note id, the notes beyond the response length keep exactly their previous
store state (no record written for them), and the batch logs the normal
progress line — no error is raised or recorded.  (`c.pending = []` is the
state in which the loop reaches every batch: each iteration ends in `commit`
or `rollback`, both of which clear the transaction buffer.) -/
theorem C10_short_provider_response_positional_and_skips (ctx : SyncCtx)
    (bIdx total : Nat) (batch : List (Nat × String)) (data : List Vec)
    (c : Conn)
    (hp : ctx.provider bIdx (batch.map Prod.snd) = .ok data)
    (hw : ctx.writeFail bIdx = none)
    (hpend : c.pending = [])
    (hlen : data.length < batch.length)
    (hnd : (batch.map Prod.fst).Nodup) :
    (processBatch ctx bIdx total batch c).2.1
      = .processedBatch (bIdx + 1) total
    ∧ (∀ i (hi : i < data.length),
        (processBatch ctx bIdx total batch c).1.committed
            (batch.get ⟨i, hi.trans hlen⟩).1
          = some (data.get ⟨i, hi⟩))
    ∧ (∀ j (hj : j < batch.length), data.length ≤ j →
        (processBatch ctx bIdx total batch c).1.committed
            (batch.get ⟨j, hj⟩).1
          = c.committed (batch.get ⟨j, hj⟩).1) := by
  have hpb : processBatch ctx bIdx total batch c
      = ({ committed := applyWrites c.committed
              ((batch.zip data).map (fun p => (p.1.1, p.2))),
           pending := [] },
         .processedBatch (bIdx + 1) total, batch.map Prod.snd) := by
    simp only [processBatch, hp, hw]
    rw [execBatchInserts_none]
    simp [Conn.commit, hpend]
  set P := (batch.zip data).map (fun p => (p.1.1, p.2)) with hP
  have hPlen : P.length = data.length := by
    simp [hP, List.length_zip, Nat.min_eq_right (Nat.le_of_lt hlen)]
  have hPfst : P.map Prod.fst = (batch.map Prod.fst).take data.length := by
    apply List.ext_getElem
    · simp only [List.length_map, hPlen, List.length_take]
      omega
    · intro n h1 h2
      simp [hP, List.getElem_map, List.getElem_zip, List.getElem_take]
  have hPnd : (P.map Prod.fst).Nodup := by
    rw [hPfst]
    exact List.Nodup.sublist (List.take_sublist _ _) hnd
  refine ⟨by rw [hpb], ?_, ?_⟩
  · intro i hi
    rw [hpb]
    have hiP : i < P.length := by rw [hPlen]; exact hi
    have h2 := applyWrites_get P hPnd c.committed i hiP
    have hPi : P.get ⟨i, hiP⟩
        = ((batch.get ⟨i, hi.trans hlen⟩).1, data.get ⟨i, hi⟩) := by
      simp [hP, List.get_eq_getElem, List.getElem_map, List.getElem_zip]
    rw [hPi] at h2
    exact h2
  · intro j hj hge
    rw [hpb]
    apply applyWrites_notMem
    rw [hPfst]
    intro hmem
    obtain ⟨⟨i, hi⟩, hgi⟩ := List.mem_iff_get.mp hmem
    have hid : i < data.length := by
      have h3 := hi
      simp only [List.length_take, List.length_map] at h3
      omega
    have hil : i < (batch.map Prod.fst).length := by
      simp only [List.length_map]
      omega
    have hjl : j < (batch.map Prod.fst).length := by
      simp only [List.length_map]
      omega
    have hgj : (batch.map Prod.fst).get ⟨i, hil⟩
        = (batch.map Prod.fst).get ⟨j, hjl⟩ := by
      have e1 : (batch.map Prod.fst).get ⟨i, hil⟩
          = ((batch.map Prod.fst).take data.length).get ⟨i, hi⟩ := by
        simp [List.get_eq_getElem, List.getElem_take]
      have e2 : (batch.map Prod.fst).get ⟨j, hjl⟩
          = (batch.get ⟨j, hj⟩).1 := by
        simp [List.get_eq_getElem, List.getElem_map]
      rw [e1, e2, hgi]
    have hfin := (hnd.get_inj_iff).mp hgj
    have hij : i = j := by simpa using congrArg Fin.val hfin
    omega

/-- Witness for C10: a three-note batch answered with two vectors; notes 1 and
2 get the two vectors positionally, note 3's pre-existing record is untouched
and no error line is produced. -/
theorem C10_short_provider_response_witness :
    ctxShort.provider 0
        (([(1, "a"), (2, "b"), (3, "c")] : List (Nat × String)).map Prod.snd)
      = .ok [[10], [20]]
    ∧ ctxShort.writeFail 0 = none
    ∧ connWith3.pending = []
    ∧ ([[10], [20]] : List Vec).length
        < ([(1, "a"), (2, "b"), (3, "c")] : List (Nat × String)).length
    ∧ (([(1, "a"), (2, "b"), (3, "c")] : List (Nat × String)).map
        Prod.fst).Nodup
    ∧ (processBatch ctxShort 0 1 [(1, "a"), (2, "b"), (3, "c")]
        connWith3).2.1 = .processedBatch 1 1
    ∧ (processBatch ctxShort 0 1 [(1, "a"), (2, "b"), (3, "c")]
        connWith3).1.committed 1 = some [10]
    ∧ (processBatch ctxShort 0 1 [(1, "a"), (2, "b"), (3, "c")]
        connWith3).1.committed 2 = some [20]
    ∧ (processBatch ctxShort 0 1 [(1, "a"), (2, "b"), (3, "c")]
        connWith3).1.committed 3 = connWith3.committed 3 := by
  have h := C10_short_provider_response_positional_and_skips ctxShort 0 1
    [(1, "a"), (2, "b"), (3, "c")] [[10], [20]] connWith3 rfl rfl rfl
    (by decide) (by decide)
  exact ⟨rfl, rfl, rfl, by decide, by decide, h.1,
    h.2.1 0 (by decide), h.2.1 1 (by decide), h.2.2 2 (by decide) (by decide)⟩
